import Mathlib

/-!
Verification of the Uball ingestion pipeline's resource-aware parallel
processing engine, shallowly embedded from the Python source:
`app/parallel_processor.py`, `app/video_processor.py`, `app/s3_uploader.py`,
and `video_extractor.py`.  External effects (ffmpeg, ffprobe, the network,
the filesystem) are modelled as explicit environment parameters recording
the outcome each external call would have had; the embedded functions then
mirror the Python control flow over those outcomes.
-/

namespace Uball

/-! ## ResourceManager (app/parallel_processor.py, lines 19-86)

Each probe is modelled as an `Option`: `none` means the underlying OS query
raised (or, for `os.cpu_count()`, returned `None`), `some v` means it
returned `v`.  The embedded function applies exactly the fallbacks the
Python code applies. -/

/-- Python truncation `int(q)`: toward zero (floor for nonnegative,
ceiling for negative). -/
def pyInt (q : ℚ) : ℤ := if 0 ≤ q then ⌊q⌋ else ⌈q⌉

/-- `ResourceManager.get_cpu_count`: `os.cpu_count() or 2`.  Python `or`
falls back both on `None` and on the falsy value `0`. -/
def get_cpu_count (probe : Option ℕ) : ℕ :=
  match probe with
  | none => 2
  | some 0 => 2
  | some n => n

/-- `ResourceManager.get_available_memory_gb`: returns the probed value,
or `4.0` if `psutil.virtual_memory()` raises. -/
def get_available_memory_gb (probe : Option ℚ) : ℚ :=
  match probe with
  | none => 4
  | some m => m

/-- `ResourceManager.check_gpu_available`: `nvidia-smi` returncode test;
any exception (timeout, missing binary) yields `False`. -/
def check_gpu_available (probe : Option Bool) : Bool :=
  match probe with
  | none => false
  | some b => b

/-- `ResourceManager.get_max_concurrent_ffmpeg`: the full ceiling
computation.  `mem_based_limit = int(available_mem_gb / 2)`,
`cpu_based_limit = max(1, cpu_count // 2)`, GPU branch caps at 2,
final clamp `max(1, min(recommended, 4))`. -/
def get_max_concurrent_ffmpeg (cpuProbe : Option ℕ) (memProbe : Option ℚ)
    (gpuProbe : Option Bool) : ℤ :=
  let cpu_count := get_cpu_count cpuProbe
  let available_mem_gb := get_available_memory_gb memProbe
  let has_gpu := check_gpu_available gpuProbe
  let mem_based_limit := pyInt (available_mem_gb / 2)
  let cpu_based_limit : ℤ := max 1 ((cpu_count : ℤ) / 2)
  let recommended :=
    if has_gpu then min mem_based_limit 2
    else min mem_based_limit cpu_based_limit
  max 1 (min recommended 4)

/-! ## Resolution decision (app/video_processor.py, lines 71-83) -/

/-- `is_4k_or_higher(width, height)`: `width >= 3840 or height >= 2160`. -/
def is_4k_or_higher (width height : ℤ) : Bool :=
  decide (3840 ≤ width) || decide (2160 ≤ height)

/-! ## S3Uploader (app/s3_uploader.py) -/

/-- Outcome of one `s3_client.upload_file` call, as seen by the retry
loop.  `clientError code` is a botocore `ClientError` carrying its error
code (for example "403" for permission denied — `test_connection` in the
same file classifies permission failures as `ClientError` with code 403);
`otherError` is any exception of a different class, which the
`except ClientError` clause does not catch. -/
inductive AttemptResult where
  | success
  | clientError (code : String)
  | otherError
  deriving DecidableEq, Repr

/-- How one call to `upload_file` terminated. -/
inductive UploadOutcome where
  | ok            -- returned True
  | raisedClient  -- re-raised the last ClientError after the final attempt
  | raisedOther   -- an uncaught non-ClientError exception propagated
  | fellThrough   -- the for-loop body never raised nor returned (max_retries = 0)
  deriving DecidableEq, Repr

/-- Observable trace of one retry loop: number of `upload_file` attempts
actually made, the backoff delays slept (in seconds, in order), and how
the call terminated. -/
structure UploadRun where
  attempts : ℕ
  delays : List ℕ
  outcome : UploadOutcome
  deriving DecidableEq, Repr

/-- The body of `_simple_upload` / `_multipart_upload` (the two loops are
textually identical in their retry structure): `for attempt in
range(max_retries)` starting at index `i` with `fuel = max_retries - i`
iterations left.  On success return True; on `ClientError`, re-raise if
`attempt == max_retries - 1`, else `sleep(2 ** attempt)` and continue;
any other exception propagates at once. -/
def runFrom (outcomes : ℕ → AttemptResult) (max_retries : ℕ) :
    ℕ → ℕ → UploadRun
  | _, 0 => ⟨0, [], .fellThrough⟩
  | i, fuel + 1 =>
    match outcomes i with
    | .success => ⟨1, [], .ok⟩
    | .otherError => ⟨1, [], .raisedOther⟩
    | .clientError _ =>
      if i = max_retries - 1 then ⟨1, [], .raisedClient⟩
      else
        let rest := runFrom outcomes max_retries (i + 1) fuel
        ⟨rest.attempts + 1, 2 ^ i :: rest.delays, rest.outcome⟩

/-- One retry loop of `S3Uploader._simple_upload` or
`S3Uploader._multipart_upload`, driven by the environment `outcomes`
giving the result of each S3 call. -/
def upload_retry_loop (outcomes : ℕ → AttemptResult) (max_retries : ℕ) :
    UploadRun :=
  runFrom outcomes max_retries 0 max_retries

/-- Transfer strategy chosen by `upload_file`. -/
inductive Strategy where
  | simple
  | multipart
  deriving DecidableEq, Repr

/-- `upload_file` strategy selection: `if file_size > 100 * 1024 * 1024`
use multipart, else simple (`file_size` in bytes). -/
def chooseStrategy (file_size : ℕ) : Strategy :=
  if file_size > 100 * 1024 * 1024 then .multipart else .simple

/-- `S3Uploader.upload_file`: selects the strategy by size and runs the
corresponding retry loop (both loops have the same retry structure). -/
def upload_file (file_size : ℕ) (outcomes : ℕ → AttemptResult)
    (max_retries : ℕ := 3) : Strategy × UploadRun :=
  (chooseStrategy file_size, upload_retry_loop outcomes max_retries)

/-! ## ParallelProcessor._process_angle (app/parallel_processor.py, lines 222-315)

The environment records what each external call would do.  `destExists`
records whether the destination object already exists in S3 at the
computed key: the Python function never performs such a check, so the
embedding takes the flag but, faithfully, never reads it. -/

/-- Environment for one `_process_angle` invocation. -/
structure AngleEnv where
  destExists : Bool
  extractOk : Bool
  resolution : Option (ℤ × ℤ)  -- get_resolution: none models (None, None)
  compressOk : Bool
  uploadOk : Bool

/-- Terminal status written into `job.angle_status[angle_full]`. -/
inductive AngleStatus where
  | completed
  | error
  deriving DecidableEq, Repr

/-- Which local file was handed to `upload_to_s3` as `final_path`. -/
inductive Artifact where
  | segment     -- the raw extracted segment, unmodified
  | compressed  -- the re-encoded file
  deriving DecidableEq, Repr

/-- Observable result of one `_process_angle` invocation: terminal
status, which transient files remain on disk afterwards, how many times
each external tool was invoked, and which artifact (if any) was uploaded. -/
structure AngleResult where
  status : AngleStatus
  segmentOnDisk : Bool
  compressedOnDisk : Bool
  extractCalls : ℕ
  probeCalls : ℕ
  compressCalls : ℕ
  uploadCalls : ℕ
  uploadedArtifact : Option Artifact
  deriving DecidableEq, Repr

/-- `ParallelProcessor._process_angle`, inside the `async with
self.semaphore` block.  Control flow mirrors the Python exactly: extract,
probe resolution (raise if unknown), compress iff `is_4k_or_higher`
(deleting the segment after a successful compression), upload the final
path, then unlink it.  The `except` clause only sets the error status and
re-raises: it deletes nothing. -/
def process_angle (env : AngleEnv) : AngleResult :=
  if env.extractOk = false then
    -- extract_segment raised; no segment artifact was produced
    { status := .error, segmentOnDisk := false, compressedOnDisk := false,
      extractCalls := 1, probeCalls := 0, compressCalls := 0,
      uploadCalls := 0, uploadedArtifact := none }
  else
    match env.resolution with
    | none =>
      -- ValueError: could not determine resolution; segment remains
      { status := .error, segmentOnDisk := true, compressedOnDisk := false,
        extractCalls := 1, probeCalls := 1, compressCalls := 0,
        uploadCalls := 0, uploadedArtifact := none }
    | some (w, h) =>
      if is_4k_or_higher w h then
        if env.compressOk = false then
          -- compress_video raised; segment remains, no compressed output
          { status := .error, segmentOnDisk := true, compressedOnDisk := false,
            extractCalls := 1, probeCalls := 1, compressCalls := 1,
            uploadCalls := 0, uploadedArtifact := none }
        else if env.uploadOk = false then
          -- segment was unlinked after compression; compressed file remains
          { status := .error, segmentOnDisk := false, compressedOnDisk := true,
            extractCalls := 1, probeCalls := 1, compressCalls := 1,
            uploadCalls := 1, uploadedArtifact := none }
        else
          { status := .completed, segmentOnDisk := false,
            compressedOnDisk := false, extractCalls := 1, probeCalls := 1,
            compressCalls := 1, uploadCalls := 1,
            uploadedArtifact := some .compressed }
      else
        if env.uploadOk = false then
          -- final_path is the segment; upload raised before the unlink
          { status := .error, segmentOnDisk := true, compressedOnDisk := false,
            extractCalls := 1, probeCalls := 1, compressCalls := 0,
            uploadCalls := 1, uploadedArtifact := none }
        else
          { status := .completed, segmentOnDisk := false,
            compressedOnDisk := false, extractCalls := 1, probeCalls := 1,
            compressCalls := 0, uploadCalls := 1,
            uploadedArtifact := some .segment }

/-! ## VideoExtractor.process_angle (video_extractor.py, lines 230-335)

The legacy single-purpose pipeline.  Its step 2 does perform the
destination-existence check (`head_object`) before any work. -/

/-- Result of the `head_object` existence check in
`VideoExtractor.process_angle`. -/
inductive HeadCheck where
  | found        -- head_object succeeded: object exists
  | missing      -- ClientError with code 404: continue processing
  | errorOther   -- ClientError with another code: abort with False
  deriving DecidableEq, Repr

/-- Environment for one `VideoExtractor.process_angle` invocation. -/
structure ExtractorEnv where
  fileFound : Bool      -- a source file matched the angle glob patterns
  localExists : Bool    -- the matched path exists on disk
  headCheck : HeadCheck
  extractOk : Bool
  uploadOk : Bool

/-- Observable result of one `VideoExtractor.process_angle` invocation. -/
structure ExtractorResult where
  success : Bool
  extractCalls : ℕ
  uploadCalls : ℕ
  segmentOnDisk : Bool
  deriving DecidableEq, Repr

/-- `VideoExtractor.process_angle`: find the source file, check the
destination in S3 (short-circuiting to success if it already exists),
extract, upload (cleaning the segment on upload failure), then unlink the
segment. -/
def extractor_process_angle (env : ExtractorEnv) : ExtractorResult :=
  if env.fileFound = false then
    ⟨false, 0, 0, false⟩
  else if env.localExists = false then
    ⟨false, 0, 0, false⟩
  else
    match env.headCheck with
    | .found => ⟨true, 0, 0, false⟩
    | .errorOther => ⟨false, 0, 0, false⟩
    | .missing =>
      if env.extractOk = false then
        ⟨false, 1, 0, false⟩
      else if env.uploadOk = false then
        -- segment_file.unlink() on the upload-failure path
        ⟨false, 1, 1, false⟩
      else
        ⟨true, 1, 1, false⟩

/-! ## ParallelProcessor._process_game / process_games
(app/parallel_processor.py, lines 165-219)

`asyncio.gather(*angle_tasks, return_exceptions=True)` hands back one
outcome per angle task whatever the siblings did; each outcome is
modelled as a `Bool` that is `true` when that task raised. -/

/-- Terminal status written into `job.status`. -/
inductive JobStatus where
  | completed
  | error
  deriving DecidableEq, Repr

/-- The failure-aggregation logic of `_process_game` after the gather:
`failures = [r for r in results if isinstance(r, Exception)]`. -/
def process_game (angleRaised : List Bool) : JobStatus × Option String :=
  let failures := (angleRaised.filter (fun b => b)).length
  if 0 < failures then (.error, some (toString failures ++ " angles failed"))
  else (.completed, none)

/-- `process_games`: gathers one `_process_game` task per job with
`return_exceptions=True`; every job runs to termination and the call
itself returns normally. -/
def process_games (jobs : List (List Bool)) : List (JobStatus × Option String) :=
  jobs.map process_game

/-! ## The shared semaphore discipline (app/parallel_processor.py,
lines 152-153 and 231-232)

One `asyncio.Semaphore(max_concurrent)` is created per
`ParallelProcessor` and shared by every `_process_angle` task of every
job in the batch.  Each task's whole heavy body runs inside
`async with self.semaphore`, which releases the slot on every exit,
normal or exceptional.  The discipline is modelled as a transition
system: a task is `waiting` until it acquires a slot, `running` while it
holds one (executing any of the heavy stages), and `done` after the
scoped release. -/

/-- Phase of one angle task with respect to the shared semaphore. -/
inductive Phase where
  | waiting
  | running
  | done
  deriving DecidableEq, Repr

/-- Global scheduler state: free semaphore slots plus the phase of every
angle task across all jobs of the batch. -/
structure SchedState where
  sem : ℕ
  phases : List Phase
  deriving DecidableEq, Repr

/-- Number of tasks currently inside the `async with` block, i.e.
concurrently executing heavy stages. -/
def runningCount (s : SchedState) : ℕ :=
  (s.phases.filter (fun p => p = Phase.running)).length

/-- Initial state of a batch: capacity `c` free slots, `n` angle tasks
all waiting. -/
def initState (c n : ℕ) : SchedState :=
  ⟨c, List.replicate n Phase.waiting⟩

/-- One scheduler step.  `acquire`: a waiting task takes a free slot and
starts its heavy body.  `release`: a running task leaves the
`async with` block — on success or on an exception alike — and its slot
returns to the semaphore. -/
inductive SchedStep : SchedState → SchedState → Prop where
  | acquire (s : SchedState) (i : ℕ) (hi : i < s.phases.length)
      (hw : s.phases.get ⟨i, hi⟩ = Phase.waiting) (hs : 0 < s.sem) :
      SchedStep s ⟨s.sem - 1, s.phases.set i Phase.running⟩
  | release (s : SchedState) (i : ℕ) (hi : i < s.phases.length)
      (hr : s.phases.get ⟨i, hi⟩ = Phase.running) :
      SchedStep s ⟨s.sem + 1, s.phases.set i Phase.done⟩

/-- States reachable during a batch run with ceiling `c` and `n` angle
tasks. -/
def Reachable (c n : ℕ) (s : SchedState) : Prop :=
  Relation.ReflTransGen SchedStep (initState c n) s

/-- `ParallelProcessor.__init__` capacity resolution: use the explicit
`max_concurrent` argument verbatim when given, otherwise auto-detect.
No validation, no clamping. -/
def resolve_max_concurrent (maxConcurrent : Option ℕ) (autoDetected : ℕ) : ℕ :=
  match maxConcurrent with
  | none => autoDetected
  | some v => v

/-! ## Helper lemmas -/

lemma filter_length_set {α : Type} (q : α → Bool) :
    ∀ (l : List α) (i : ℕ) (a b : α), l.get? i = some b →
      ((l.set i a).filter q).length + (if q b then 1 else 0) =
        (l.filter q).length + (if q a then 1 else 0)
  | [], _, _, _ => by intro hb; simp at hb
  | x :: xs, 0, a, b => by
      intro hb
      simp only [List.get?] at hb
      injection hb with hb
      subst hb
      cases hqa : q a <;> cases hqx : q x <;>
        simp [List.set, List.filter_cons, hqa, hqx]
  | x :: xs, i + 1, a, b => by
      intro hb
      simp only [List.get?] at hb
      have ih := filter_length_set q xs i a b hb
      cases hqx : q x <;>
        simp only [List.set, List.filter_cons, hqx, Bool.false_eq_true,
          if_false, if_true, List.length_cons] <;> omega

lemma runningCount_initState (c n : ℕ) : runningCount (initState c n) = 0 := by
  simp only [runningCount, initState]
  induction n with
  | zero => simp
  | succ n ih => simp [List.replicate_succ, List.filter_cons, ih]

/-- One scheduler step preserves the slot-conservation equation. -/
lemma sched_step_preserve {cap : ℕ} {t u : SchedState} (hstep : SchedStep t u)
    (ht : t.sem + runningCount t = cap) : u.sem + runningCount u = cap := by
  cases hstep with
  | acquire i hi hw hs =>
    have hb : t.phases.get? i = some Phase.waiting := by
      rw [List.get?_eq_get hi, hw]
    have key := filter_length_set (fun p => decide (p = Phase.running))
      t.phases i Phase.running Phase.waiting hb
    rw [if_neg (by simp), if_pos (by simp)] at key
    simp only [runningCount] at ht ⊢
    omega
  | release i hi hr =>
    have hb : t.phases.get? i = some Phase.running := by
      rw [List.get?_eq_get hi, hr]
    have key := filter_length_set (fun p => decide (p = Phase.running))
      t.phases i Phase.done Phase.running hb
    rw [if_pos (by simp), if_neg (by simp)] at key
    simp only [runningCount] at ht ⊢
    omega

/-- Conservation of semaphore slots: free slots plus tasks inside the
`async with` block always total the configured capacity. -/
lemma sched_conservation {cap n : ℕ} {s : SchedState} (h : Reachable cap n s) :
    s.sem + runningCount s = cap := by
  have h' : Relation.ReflTransGen SchedStep (initState cap n) s := h
  clear h
  induction h' with
  | refl => rw [runningCount_initState]; simp [initState]
  | tail hab hstep ih => exact sched_step_preserve hstep ih

/-- With capacity zero, the scheduler can never move: no acquire is
enabled (no free slot) and no release is enabled (no running task). -/
lemma reachable_cap_zero {n : ℕ} {s : SchedState} (h : Reachable 0 n s) :
    s = initState 0 n := by
  have h' : Relation.ReflTransGen SchedStep (initState 0 n) s := h
  clear h
  induction h' with
  | refl => rfl
  | tail hab hstep ih =>
    rw [ih] at hstep
    cases hstep with
    | acquire i hi hw hs => exact absurd hs (by simp [initState])
    | release i hi hr =>
      have hmem : (initState 0 n).phases.get ⟨i, hi⟩ ∈ (initState 0 n).phases :=
        List.get_mem _ _ _
      have hwait : (initState 0 n).phases.get ⟨i, hi⟩ = Phase.waiting :=
        List.eq_of_mem_replicate (by simpa [initState] using hmem)
      rw [hwait] at hr
      exact absurd hr (by simp)

lemma runFrom_attempts_le (outcomes : ℕ → AttemptResult) (mr : ℕ) :
    ∀ (fuel i : ℕ), (runFrom outcomes mr i fuel).attempts ≤ fuel
  | 0, _ => by simp [runFrom]
  | fuel + 1, i => by
      have ih := runFrom_attempts_le outcomes mr fuel (i + 1)
      simp only [runFrom]
      cases outcomes i with
      | success => simp
      | otherError => simp
      | clientError code =>
        split_ifs with hif
        · simp
        · simp only
          omega

lemma runFrom_attempts_pos (outcomes : ℕ → AttemptResult) (mr i fuel : ℕ) :
    1 ≤ (runFrom outcomes mr i (fuel + 1)).attempts := by
  simp only [runFrom]
  cases outcomes i with
  | success => simp
  | otherError => simp
  | clientError code =>
    split_ifs with hif
    · simp
    · simp only
      omega

lemma runFrom_clientError_step (outcomes : ℕ → AttemptResult) (mr i fuel : ℕ)
    (c : String) (h : outcomes i = AttemptResult.clientError c) (hne : i ≠ mr - 1) :
    runFrom outcomes mr i (fuel + 1) =
      ⟨(runFrom outcomes mr (i + 1) fuel).attempts + 1,
        2 ^ i :: (runFrom outcomes mr (i + 1) fuel).delays,
        (runFrom outcomes mr (i + 1) fuel).outcome⟩ := by
  simp [runFrom, h, hne]

lemma runFrom_delays_getD (outcomes : ℕ → AttemptResult) (mr : ℕ) :
    ∀ (fuel i j : ℕ), j < (runFrom outcomes mr i fuel).delays.length →
      (runFrom outcomes mr i fuel).delays.getD j 0 = 2 ^ (i + j)
  | 0, _, _ => by simp [runFrom]
  | fuel + 1, i, j => by
      simp only [runFrom]
      cases outcomes i with
      | success => simp
      | otherError => simp
      | clientError code =>
        split_ifs with hif
        · simp
        · intro hj
          cases j with
          | zero => simp
          | succ j =>
            simp only [List.length_cons, Nat.add_lt_add_iff_right] at hj
            have ih := runFrom_delays_getD outcomes mr fuel (i + 1) j hj
            have harith : i + 1 + j = i + (j + 1) := by omega
            simpa [List.getD_cons_succ, harith] using ih

/-! ## Claim theorems -/

/-- C1: during a batch run with resolved ceiling `cap`, at every reachable
instant the number of angle tasks concurrently executing heavy stages
never exceeds `cap`, and slots are conserved (every exit path returns its
slot, so free slots plus running tasks always equal `cap`). -/
theorem semaphore_ceiling_invariant (cap n : ℕ) (s : SchedState)
    (h : Reachable cap n s) :
    runningCount s ≤ cap ∧ s.sem + runningCount s = cap := by
  have hc := sched_conservation h
  exact ⟨by omega, hc⟩

theorem semaphore_ceiling_invariant_witness :
    runningCount ⟨0, [Phase.running, Phase.running]⟩ ≤ 2 ∧
    (SchedState.mk 0 [Phase.running, Phase.running]).sem +
      runningCount ⟨0, [Phase.running, Phase.running]⟩ = 2 := by
  have t1 : SchedStep (initState 2 2) ⟨1, [Phase.running, Phase.waiting]⟩ :=
    SchedStep.acquire (initState 2 2) 0 (by decide) (by decide) (by decide)
  have t2 : SchedStep ⟨1, [Phase.running, Phase.waiting]⟩
      ⟨0, [Phase.running, Phase.running]⟩ :=
    SchedStep.acquire ⟨1, [Phase.running, Phase.waiting]⟩ 1
      (by decide) (by decide) (by decide)
  exact semaphore_ceiling_invariant 2 2 _
    (Relation.ReflTransGen.tail
      (Relation.ReflTransGen.tail Relation.ReflTransGen.refl t1) t2)

/-- C2 counterexample: an angle task whose destination object already
exists (`destExists = true`) still invokes the extractor, the prober and
the transfer in `ParallelProcessor._process_angle` — the claimed
short-circuit does not happen in this pipeline. -/
theorem idempotent_shortcircuit_counterexample :
    (AngleEnv.mk true true (some (1920, 1080)) true true).destExists = true ∧
    (process_angle (AngleEnv.mk true true (some (1920, 1080)) true true)).extractCalls = 1 ∧
    (process_angle (AngleEnv.mk true true (some (1920, 1080)) true true)).probeCalls = 1 ∧
    (process_angle (AngleEnv.mk true true (some (1920, 1080)) true true)).uploadCalls = 1 := by
  decide

/-- C2 (amended): only the legacy `VideoExtractor.process_angle` pipeline
short-circuits to success with zero tool invocations when the destination
object already exists; `ParallelProcessor._process_angle` performs no
destination-existence check and always invokes the extractor. -/
theorem idempotent_shortcircuit_amended (envE : ExtractorEnv) (envP : AngleEnv) :
    (envE.fileFound = true → envE.localExists = true →
      envE.headCheck = HeadCheck.found →
      extractor_process_angle envE = ⟨true, 0, 0, false⟩) ∧
    (process_angle envP).extractCalls = 1 := by
  constructor
  · intro h1 h2 h3
    obtain ⟨f, l, hc, e, u⟩ := envE
    simp only at h1 h2 h3
    subst h1; subst h2; subst h3
    simp [extractor_process_angle]
  · obtain ⟨d, e, r, cok, uok⟩ := envP
    cases e
    · simp [process_angle]
    · cases r with
      | none => simp [process_angle]
      | some p =>
        obtain ⟨w, h⟩ := p
        cases cok <;> cases uok <;>
          simp [process_angle] <;> split_ifs <;> rfl

theorem idempotent_shortcircuit_amended_witness :
    extractor_process_angle (ExtractorEnv.mk true true HeadCheck.found true true) =
      ⟨true, 0, 0, false⟩ ∧
    (process_angle (AngleEnv.mk false true (some (3840, 2160)) true true)).extractCalls = 1 :=
  ⟨(idempotent_shortcircuit_amended
      (ExtractorEnv.mk true true HeadCheck.found true true)
      (AngleEnv.mk false true (some (3840, 2160)) true true)).1 rfl rfl rfl,
   (idempotent_shortcircuit_amended
      (ExtractorEnv.mk true true HeadCheck.found true true)
      (AngleEnv.mk false true (some (3840, 2160)) true true)).2⟩

/-- C3 counterexample: extraction succeeds and produces a segment, the
upload then fails, the task goes terminal in `error` — and the extracted
segment is still on disk, against the claim that no transient artifact
survives any exit path. -/
theorem cleanup_on_error_counterexample :
    (process_angle (AngleEnv.mk false true (some (1920, 1080)) true false)).status =
      AngleStatus.error ∧
    (process_angle (AngleEnv.mk false true (some (1920, 1080)) true false)).extractCalls = 1 ∧
    (process_angle (AngleEnv.mk false true (some (1920, 1080)) true false)).segmentOnDisk = true := by
  decide

/-- C3 (amended): transient artifacts are all removed when the angle task
completes successfully, and a successful compression removes the raw
segment at once; on error exits after extraction produced an artifact,
the current transient artifact remains on disk. -/
theorem cleanup_amended (env : AngleEnv) :
    ((process_angle env).status = AngleStatus.completed →
      (process_angle env).segmentOnDisk = false ∧
      (process_angle env).compressedOnDisk = false) ∧
    (∀ w h : ℤ, env.extractOk = true → env.resolution = some (w, h) →
      is_4k_or_higher w h = true → env.compressOk = true →
      (process_angle env).segmentOnDisk = false) ∧
    (env.extractOk = true → (process_angle env).status = AngleStatus.error →
      (process_angle env).segmentOnDisk = true ∨
      (process_angle env).compressedOnDisk = true) := by
  obtain ⟨d, e, r, cok, uok⟩ := env
  refine ⟨?_, ?_, ?_⟩
  · cases e
    · simp [process_angle]
    · cases r with
      | none => simp [process_angle]
      | some p =>
        obtain ⟨w, h⟩ := p
        cases cok <;> cases uok <;> simp [process_angle] <;>
          split_ifs <;> simp
  · intro w h he hr h4 hcok
    simp only at he hr hcok
    subst he; subst hr; subst hcok
    cases uok <;> simp [process_angle, h4]
  · intro he
    simp only at he
    subst he
    cases r with
    | none => simp [process_angle]
    | some p =>
      obtain ⟨w, h⟩ := p
      cases h4 : is_4k_or_higher w h <;> cases cok <;> cases uok <;>
        simp [process_angle, h4]

theorem cleanup_amended_witness :
    ((process_angle (AngleEnv.mk false true (some (3840, 2160)) true true)).segmentOnDisk = false ∧
     (process_angle (AngleEnv.mk false true (some (3840, 2160)) true true)).compressedOnDisk = false) ∧
    ((process_angle (AngleEnv.mk false true (some (1920, 1080)) true false)).segmentOnDisk = true ∨
     (process_angle (AngleEnv.mk false true (some (1920, 1080)) true false)).compressedOnDisk = true) :=
  ⟨(cleanup_amended (AngleEnv.mk false true (some (3840, 2160)) true true)).1 (by decide),
   (cleanup_amended (AngleEnv.mk false true (some (1920, 1080)) true false)).2.2 rfl (by decide)⟩

/-- C4: the concurrency ceiling never raises (it is a total function of
the probe outcomes), always lands in `[1, 4]`, equals
`clamp(candidate, 1, 4)` with the candidate from the spec's formula, and
the fallbacks for failed probes are 2 cores, 4GB and no accelerator. -/
theorem resource_ceiling_spec (cpuProbe : Option ℕ) (memProbe : Option ℚ)
    (gpuProbe : Option Bool) (hmem : 0 ≤ get_available_memory_gb memProbe) :
    1 ≤ get_max_concurrent_ffmpeg cpuProbe memProbe gpuProbe ∧
    get_max_concurrent_ffmpeg cpuProbe memProbe gpuProbe ≤ 4 ∧
    get_max_concurrent_ffmpeg cpuProbe memProbe gpuProbe =
      max 1 (min (if check_gpu_available gpuProbe
          then min ⌊get_available_memory_gb memProbe / 2⌋ 2
          else min ⌊get_available_memory_gb memProbe / 2⌋
            (max 1 ((get_cpu_count cpuProbe : ℤ) / 2))) 4) ∧
    get_cpu_count none = 2 ∧ get_available_memory_gb none = 4 ∧
    check_gpu_available none = false := by
  have hq : (0 : ℚ) ≤ get_available_memory_gb memProbe / 2 := by positivity
  have hpy : pyInt (get_available_memory_gb memProbe / 2) =
      ⌊get_available_memory_gb memProbe / 2⌋ := if_pos hq
  refine ⟨?_, ?_, ?_, rfl, rfl, rfl⟩
  · simp only [get_max_concurrent_ffmpeg]
    exact le_max_left _ _
  · simp only [get_max_concurrent_ffmpeg]
    exact max_le (by norm_num) (min_le_right _ _)
  · simp only [get_max_concurrent_ffmpeg]
    rw [hpy]

theorem resource_ceiling_spec_witness :
    1 ≤ get_max_concurrent_ffmpeg (some 8) (some 16) (some false) ∧
    get_max_concurrent_ffmpeg (some 8) (some 16) (some false) ≤ 4 :=
  ⟨(resource_ceiling_spec (some 8) (some 16) (some false)
      (by norm_num [get_available_memory_gb])).1,
   (resource_ceiling_spec (some 8) (some 16) (some false)
      (by norm_num [get_available_memory_gb])).2.1⟩

/-- C5: a job's status is `error` exactly when at least one of its angle
tasks raised, with message "N angles failed" for N the number of raised
tasks, and `completed` (no message) otherwise; every job of a batch gets
a result (one per job, each depending only on that job's own angle
outcomes), and `process_games` is a total function — it never raises for
per-item failures. -/
theorem job_aggregation_spec (angleRaised : List Bool) (jobs : List (List Bool)) :
    ((process_game angleRaised).1 = JobStatus.error ↔
      0 < (angleRaised.filter (fun b => b)).length) ∧
    (0 < (angleRaised.filter (fun b => b)).length →
      (process_game angleRaised).2 =
        some (toString (angleRaised.filter (fun b => b)).length ++ " angles failed")) ∧
    ((angleRaised.filter (fun b => b)).length = 0 →
      process_game angleRaised = (JobStatus.completed, none)) ∧
    (process_games jobs).length = jobs.length ∧
    (∀ k : ℕ, (process_games jobs).get? k = (jobs.get? k).map process_game) := by
  refine ⟨?_, ?_, ?_, by simp [process_games], fun k => by simp [process_games]⟩
  · by_cases hl : 0 < (angleRaised.filter (fun b => b)).length <;>
      simp [process_game, hl]
  · intro hl; simp [process_game, hl]
  · intro hl; simp [process_game, hl]

theorem job_aggregation_spec_witness :
    (process_game [false, true, false, false]).1 = JobStatus.error ∧
    (process_game [false, true, false, false]).2 =
      some (toString 1 ++ " angles failed") ∧
    process_game [false, false, false, false] = (JobStatus.completed, none) := by
  have h1 := job_aggregation_spec [false, true, false, false] [[true], [false]]
  have h2 := job_aggregation_spec [false, false, false, false] [[true], [false]]
  exact ⟨h1.1.mpr (by decide), h1.2.1 (by decide), h2.2.2.1 (by decide)⟩

/-- C6: with MAX_RETRIES = 3 the delay slept before retry attempt `i`
(0-indexed, the `j`-th recorded delay preceding attempt `j+1`) is
`base * 2^(i-1)` seconds with base 1s; at most 3 attempts are ever made;
three consecutive client errors make exactly 3 attempts, sleep 1s and 2s,
and re-raise the last error as terminal; and two transient failures
followed by a success make exactly 3 attempts with delays 1s and 2s. -/
theorem retry_backoff_spec (outcomes : ℕ → AttemptResult) :
    (∀ j, j < (upload_retry_loop outcomes 3).delays.length →
      (upload_retry_loop outcomes 3).delays.getD j 0 = 2 ^ j) ∧
    (upload_retry_loop outcomes 3).attempts ≤ 3 ∧
    ((∀ i, i < 3 → ∃ c, outcomes i = AttemptResult.clientError c) →
      upload_retry_loop outcomes 3 = ⟨3, [1, 2], UploadOutcome.raisedClient⟩) ∧
    (∀ c0 c1, outcomes 0 = AttemptResult.clientError c0 →
      outcomes 1 = AttemptResult.clientError c1 →
      outcomes 2 = AttemptResult.success →
      upload_retry_loop outcomes 3 = ⟨3, [1, 2], UploadOutcome.ok⟩) := by
  refine ⟨?_, runFrom_attempts_le outcomes 3 3 0, ?_, ?_⟩
  · intro j hj
    simpa using runFrom_delays_getD outcomes 3 3 0 j hj
  · intro hall
    obtain ⟨c0, h0⟩ := hall 0 (by omega)
    obtain ⟨c1, h1⟩ := hall 1 (by omega)
    obtain ⟨c2, h2⟩ := hall 2 (by omega)
    simp [upload_retry_loop, runFrom, h0, h1, h2]
  · intro c0 c1 h0 h1 h2
    simp [upload_retry_loop, runFrom, h0, h1, h2]

theorem retry_backoff_spec_witness :
    upload_retry_loop
      (fun i => if i < 2 then AttemptResult.clientError "500" else AttemptResult.success) 3 =
      ⟨3, [1, 2], UploadOutcome.ok⟩ :=
  (retry_backoff_spec
      (fun i => if i < 2 then AttemptResult.clientError "500" else AttemptResult.success)).2.2.2
    "500" "500" (by decide) (by decide) (by decide)

/-- C7 counterexample: a first attempt failing with a permission-denied
`ClientError` (code 403) is followed by a second attempt — the code does
not fail immediately on non-retryable error classes; it retries every
`ClientError` uniformly. -/
theorem retry_nonretryable_counterexample :
    (fun i => if i = 0 then AttemptResult.clientError "403" else AttemptResult.success) 0 =
      AttemptResult.clientError "403" ∧
    (upload_retry_loop
      (fun i => if i = 0 then AttemptResult.clientError "403" else AttemptResult.success)
      3).attempts = 2 ∧
    (upload_retry_loop
      (fun i => if i = 0 then AttemptResult.clientError "403" else AttemptResult.success)
      3).outcome = UploadOutcome.ok := by
  decide

/-- C7 (amended): the retry classification is by exception class, not by
retryability — every `ClientError`, whatever its error code (permission
denied included), triggers a retry, while any exception outside the
`ClientError` class propagates immediately with no further attempt. -/
theorem retry_classification_spec (outcomes : ℕ → AttemptResult) (code : String) :
    (outcomes 0 = AttemptResult.otherError →
      upload_retry_loop outcomes 3 = ⟨1, [], UploadOutcome.raisedOther⟩) ∧
    (outcomes 0 = AttemptResult.clientError code →
      2 ≤ (upload_retry_loop outcomes 3).attempts) := by
  constructor
  · intro h0
    simp [upload_retry_loop, runFrom, h0]
  · intro h0
    show 2 ≤ (runFrom outcomes 3 0 (2 + 1)).attempts
    rw [runFrom_clientError_step outcomes 3 0 2 code h0 (by decide)]
    exact Nat.succ_le_succ (runFrom_attempts_pos outcomes 3 1 1)

theorem retry_classification_spec_witness :
    upload_retry_loop (fun _ => AttemptResult.otherError) 3 =
      ⟨1, [], UploadOutcome.raisedOther⟩ ∧
    2 ≤ (upload_retry_loop
      (fun i => if i = 0 then AttemptResult.clientError "403" else AttemptResult.success)
      3).attempts :=
  ⟨(retry_classification_spec (fun _ => AttemptResult.otherError) "403").1 rfl,
   (retry_classification_spec
      (fun i => if i = 0 then AttemptResult.clientError "403" else AttemptResult.success)
      "403").2 (by decide)⟩

/-- C8: the compression branch is taken exactly when
`width >= 3840 or height >= 2160`; on the skip branch compression is
never invoked and the raw extracted segment is uploaded unmodified; the
boundary triples behave as the spec states. -/
theorem compression_branch_spec :
    (∀ w h : ℤ, is_4k_or_higher w h = true ↔ (3840 ≤ w ∨ 2160 ≤ h)) ∧
    (∀ (env : AngleEnv) (w h : ℤ), env.extractOk = true →
      env.resolution = some (w, h) →
      (process_angle env).compressCalls = (if is_4k_or_higher w h then 1 else 0) ∧
      (is_4k_or_higher w h = false → env.uploadOk = true →
        (process_angle env).status = AngleStatus.completed ∧
        (process_angle env).uploadedArtifact = some Artifact.segment)) ∧
    is_4k_or_higher 3839 2160 = true ∧
    is_4k_or_higher 3840 2159 = true ∧
    is_4k_or_higher 1920 1080 = false := by
  refine ⟨?_, ?_, by decide, by decide, by decide⟩
  · intro w h; simp [is_4k_or_higher]
  · intro env w h hex hres
    obtain ⟨d, e, r, cok, uok⟩ := env
    simp only at hex hres
    subst hex; subst hres
    cases h4 : is_4k_or_higher w h <;> cases cok <;> cases uok <;>
      simp [process_angle, h4]

theorem compression_branch_spec_witness :
    (process_angle (AngleEnv.mk false true (some (1920, 1080)) true true)).compressCalls = 0 ∧
    (process_angle (AngleEnv.mk false true (some (1920, 1080)) true true)).status =
      AngleStatus.completed ∧
    (process_angle (AngleEnv.mk false true (some (1920, 1080)) true true)).uploadedArtifact =
      some Artifact.segment := by
  have h := (compression_branch_spec.2.1
    (AngleEnv.mk false true (some (1920, 1080)) true true) 1920 1080 rfl rfl)
  have h2 := h.2 (by decide) rfl
  exact ⟨by rw [h.1]; decide, h2.1, h2.2⟩

/-- C9 counterexample: a file of exactly 100MB (104857600 bytes, hence of
size greater than or equal to 100MB) is transferred with the single-shot
strategy, not multipart — the code's threshold is strict. -/
theorem upload_strategy_counterexample :
    104857600 = 100 * 1024 * 1024 ∧
    chooseStrategy 104857600 = Strategy.simple := by
  decide

/-- C9 (amended): `upload_file` uses the multipart strategy exactly for
files strictly larger than 100MB (104857600 bytes); files of 100MB or
smaller use the single-shot strategy. -/
theorem upload_strategy_threshold (file_size : ℕ) (outcomes : ℕ → AttemptResult) :
    ((upload_file file_size outcomes).1 = Strategy.multipart ↔
      100 * 1024 * 1024 < file_size) ∧
    ((upload_file file_size outcomes).1 = Strategy.simple ↔
      file_size ≤ 100 * 1024 * 1024) := by
  simp only [upload_file, chooseStrategy]
  split_ifs with hgt
  · constructor
    · simp only [true_iff]; omega
    · constructor
      · intro hc; cases hc
      · omega
  · constructor
    · constructor
      · intro hc; cases hc
      · omega
    · simp only [true_iff]; omega

/-- C10: an explicit `max_concurrent` override is used verbatim as the
semaphore capacity (no validation, no clamping to [1,4]): an override of
0 permanently blocks all angle work (nothing is ever reachable beyond
the initial all-waiting state), and an override of 5 admits a reachable
state with 5 > 4 concurrently running heavy stages. -/
theorem override_unclamped_spec :
    (∀ v a : ℕ, resolve_max_concurrent (some v) a = v) ∧
    (∀ (a n : ℕ) (s : SchedState),
      Reachable (resolve_max_concurrent (some 0) a) n s →
      s = initState 0 n ∧ runningCount s = 0) ∧
    (∃ s : SchedState, Reachable (resolve_max_concurrent (some 5) 1) 5 s ∧
      4 < runningCount s) := by
  refine ⟨fun v a => rfl, ?_, ?_⟩
  · intro a n s h
    have h0 : Reachable 0 n s := h
    have heq := reachable_cap_zero h0
    refine ⟨heq, ?_⟩
    rw [heq]
    exact runningCount_initState 0 n
  · refine ⟨⟨0, [Phase.running, Phase.running, Phase.running, Phase.running,
      Phase.running]⟩, ?_, by decide⟩
    have t1 : SchedStep (initState 5 5)
        ⟨4, [Phase.running, Phase.waiting, Phase.waiting, Phase.waiting, Phase.waiting]⟩ :=
      SchedStep.acquire (initState 5 5) 0 (by decide) (by decide) (by decide)
    have t2 : SchedStep
        ⟨4, [Phase.running, Phase.waiting, Phase.waiting, Phase.waiting, Phase.waiting]⟩
        ⟨3, [Phase.running, Phase.running, Phase.waiting, Phase.waiting, Phase.waiting]⟩ :=
      SchedStep.acquire _ 1 (by decide) (by decide) (by decide)
    have t3 : SchedStep
        ⟨3, [Phase.running, Phase.running, Phase.waiting, Phase.waiting, Phase.waiting]⟩
        ⟨2, [Phase.running, Phase.running, Phase.running, Phase.waiting, Phase.waiting]⟩ :=
      SchedStep.acquire _ 2 (by decide) (by decide) (by decide)
    have t4 : SchedStep
        ⟨2, [Phase.running, Phase.running, Phase.running, Phase.waiting, Phase.waiting]⟩
        ⟨1, [Phase.running, Phase.running, Phase.running, Phase.running, Phase.waiting]⟩ :=
      SchedStep.acquire _ 3 (by decide) (by decide) (by decide)
    have t5 : SchedStep
        ⟨1, [Phase.running, Phase.running, Phase.running, Phase.running, Phase.waiting]⟩
        ⟨0, [Phase.running, Phase.running, Phase.running, Phase.running, Phase.running]⟩ :=
      SchedStep.acquire _ 4 (by decide) (by decide) (by decide)
    exact Relation.ReflTransGen.tail
      (Relation.ReflTransGen.tail
        (Relation.ReflTransGen.tail
          (Relation.ReflTransGen.tail
            (Relation.ReflTransGen.tail Relation.ReflTransGen.refl t1) t2) t3) t4) t5

theorem override_unclamped_spec_witness :
    resolve_max_concurrent (some 7) 2 = 7 ∧
    (initState 0 3 = initState 0 3 ∧ runningCount (initState 0 3) = 0) :=
  ⟨override_unclamped_spec.1 7 2,
   override_unclamped_spec.2.1 2 3 (initState 0 3) Relation.ReflTransGen.refl⟩

end Uball
